import Mathlib

/-!
Verification development for the `fav` editor extension.

The data model and the store queries/mutators (`model.ts`, `store.ts`,
`favorite.ts`, `favoriteStore.ts`) are not part of the checked sources; they
are modelled from the specification where noted. The command handlers are
translated from `src/manager.ts` (and, where relevant, the older
`src/favoriteManager.ts`), with every host prompt outcome passed as an
explicit argument and every user-visible warning/error recorded in the
result.
-/

namespace Fav

/-- Modelled from the spec: a Favorite is a leaf entry with a unique
identifier, a display label and a file-system `resourcePath`. -/
structure Favorite where
  uuid : Nat
  label : String
  resourcePath : String
deriving DecidableEq, Repr

/-- Modelled from the spec: a Group is a container entry with a unique
identifier, a display label and an ordered sequence of child Favorites
(groups do not nest). -/
structure Group where
  uuid : Nat
  label : String
  children : List Favorite
deriving DecidableEq, Repr

/-- Modelled from the spec: a Bookmarkable is either a Favorite or a Group. -/
inductive Bookmarkable where
  | fav : Favorite → Bookmarkable
  | group : Group → Bookmarkable
deriving DecidableEq, Repr

/-- Identifier of a Bookmarkable (spec: every entry has a unique identifier). -/
def Bookmarkable.uuid : Bookmarkable → Nat
  | .fav f => f.uuid
  | .group g => g.uuid

/-- `isGroup` from `model.ts` (missing from the sources): discriminates the
two variants. -/
def isGroup : Bookmarkable → Bool
  | .fav _ => false
  | .group _ => true

/-- Modelled from the spec: the Store owns the canonical flat list of
Bookmarkables (top-level favorites alongside groups; a group's children are
nested inside it). -/
abbrev Store := List Bookmarkable

/-- Modelled from the spec: the `groups()` query of the Store returns the
collection of Group entries. -/
def Store.groups (s : Store) : List Group :=
  s.filterMap fun e => match e with
    | .group g => some g
    | .fav _ => none

/-- Modelled from the spec: `getParent(favorite)` returns the Group whose
children contain the favorite, if any (a top-level Favorite has none). -/
def Store.getParent (s : Store) (f : Favorite) : Option Group :=
  (Store.groups s).find? fun g => g.children.any fun c => c.uuid == f.uuid

/-- `Group.addChild` from `model.ts` (missing from the sources), modelled
from the spec: appends the favorite to the group's ordered children. -/
def Group.addChild (g : Group) (f : Favorite) : Group :=
  { g with children := g.children ++ [f] }

/-- `Group.removeChild` from `model.ts` (missing from the sources), modelled
from the spec: removes the favorite (by identifier) from the children. -/
def Group.removeChild (g : Group) (f : Favorite) : Group :=
  { g with children := g.children.filter fun c => c.uuid != f.uuid }

/-- `Group.hasChildren` from `model.ts` (missing from the sources): whether
the group has at least one child. -/
def Group.hasChildren (g : Group) : Bool :=
  !g.children.isEmpty

/-- In-place mutation of the group object with the given identifier, as seen
through the store's canonical list: the TypeScript handlers mutate the group
object held inside the store's array, which this pure embedding renders as
rewriting the matching entry. -/
def Store.mapGroup (s : Store) (u : Nat) (h : Group → Group) : Store :=
  s.map fun e => match e with
    | .group g => if g.uuid = u then .group (h g) else .group g
    | .fav f => .fav f

/-- Dropping the identifier `u` from a surviving entry's children. -/
def cleanEntry (u : Nat) : Bookmarkable → Bookmarkable
  | .group g => .group { g with children := g.children.filter fun c => c.uuid != u }
  | .fav f => .fav f

/-- Modelled from the spec: `delete(entry)` removes the entry with the given
identifier from the store's list (a deleted Group takes its nested children
with it) and, when the entry is nested in a group, from that group's
children. -/
def Store.deleteUuid (s : Store) (u : Nat) : Store :=
  (s.filter fun e => e.uuid != u).map (cleanEntry u)

/-- Modelled from the spec: `add(entry)` appends the new entry to the
store's list. -/
def Store.add (s : Store) (e : Bookmarkable) : Store :=
  s ++ [e]

/-- Outcome of a command handler: the resulting store, and whether a
user-visible warning message was shown. -/
structure HandlerOut where
  st : Store
  warned : Bool
deriving DecidableEq, Repr

/-- `FavoriteManager.selectedElementPath` from `manager.ts`: the path of the
GUI node when it carries a truthy `fsPath`, otherwise the active editor's
document path, otherwise nothing. -/
def selectedElementPath (node : Option String) (activeEditor : Option String) : Option String :=
  match node with
  | some p => some p
  | none => activeEditor

/-- JavaScript truthiness of an array value: an array object is always
truthy, so `!arr` is `false` whatever the array's contents. -/
def jsFalsyArray (_ : List α) : Bool :=
  false

/-- `FavoriteManager.favoriteActiveFile` from `manager.ts`. The label prompt
outcome is explicit: `none` models a cancelled input box and `some ""` an
empty submission; both are falsy in the guard `if (!label) return`. The
fresh identifier of the created Favorite is passed in. -/
def favoriteActiveFile (s : Store) (node activeEditor : Option String) (u : Nat)
    (labelPrompt : Option String) : HandlerOut :=
  match selectedElementPath node activeEditor with
  | none => ⟨s, false⟩
  | some path =>
    match labelPrompt with
    | none => ⟨s, false⟩
    | some l => if l = "" then ⟨s, false⟩ else ⟨Store.add s (.fav ⟨u, l, path⟩), false⟩

/-- `FavoriteManager.favoriteActiveFileToGroup` from `manager.ts`: after the
path is resolved, an empty `groups()` result triggers a warning and aborts
(`!groups || groups.length === 0`); otherwise the quick-pick outcome and the
label prompt outcome decide whether a new Favorite is added to the picked
group's children (`group.addChild(fav); store.update(group)`). -/
def favoriteActiveFileToGroup (s : Store) (node activeEditor : Option String)
    (pick : Option Group) (labelPrompt : Option String) (u : Nat) : HandlerOut :=
  match selectedElementPath node activeEditor with
  | none => ⟨s, false⟩
  | some path =>
    let gs := Store.groups s
    if jsFalsyArray gs || gs.isEmpty then ⟨s, true⟩
    else
      match pick with
      | none => ⟨s, false⟩
      | some g =>
        match labelPrompt with
        | none => ⟨s, false⟩
        | some l =>
          if l = "" then ⟨s, false⟩
          else ⟨Store.mapGroup s g.uuid (fun gr => Group.addChild gr ⟨u, l, path⟩), false⟩

/-- `FavoriteManager.favoriteActiveFileToGroup` from the older
`favoriteManager.ts`: the no-group guard is `if (!groups)`, which tests the
array itself — always falsy-free — instead of its length, so the warning
branch is unreachable; the rest matches the newer handler
(`selection.children.push(fav); store.update(selection)`). -/
def favoriteActiveFileToGroupOld (s : Store) (node activeEditor : Option String)
    (pick : Option Group) (labelPrompt : Option String) (u : Nat) : HandlerOut :=
  match selectedElementPath node activeEditor with
  | none => ⟨s, false⟩
  | some path =>
    let gs := Store.groups s
    if jsFalsyArray gs then ⟨s, true⟩
    else
      match pick with
      | none => ⟨s, false⟩
      | some g =>
        match labelPrompt with
        | none => ⟨s, false⟩
        | some l =>
          if l = "" then ⟨s, false⟩
          else ⟨Store.mapGroup s g.uuid (fun gr => Group.addChild gr ⟨u, l, path⟩), false⟩

/-- `FavoriteManager.createGroup` from `manager.ts`: a non-falsy label from
the input box creates a new empty Group and adds it to the store. -/
def createGroup (s : Store) (u : Nat) (labelPrompt : Option String) : Store :=
  match labelPrompt with
  | none => s
  | some l => if l = "" then s else Store.add s (.group ⟨u, l, []⟩)

/-- `FavoriteManager.removeFavorite` from `manager.ts`: with a target set,
the confirmation prompt's outcome is compared to `'Yes'`; only then is the
entry deleted from the store. -/
def removeFavorite (s : Store) (target : Option Bookmarkable) (choice : Option String) : Store :=
  match target with
  | none => s
  | some bk => if choice = some "Yes" then Store.deleteUuid s bk.uuid else s

/-- `FavoriteManager.moveFavorite` from `manager.ts`: the destination group
is picked from `promptGroupSelection(parent)`; on a pick, the favorite is
removed from its parent's children (or deleted from the top level when it
has no parent) and appended to the destination's children. -/
def moveFavorite (s : Store) (f : Favorite) (pick : Option Group) : Store :=
  match pick with
  | none => s
  | some b =>
    let s1 := match Store.getParent s f with
      | some a => Store.mapGroup s a.uuid (fun g => Group.removeChild g f)
      | none => Store.deleteUuid s f.uuid
    Store.mapGroup s1 b.uuid (fun g => Group.addChild g f)

/-- `FavoriteManager.promptGroupSelection` from `manager.ts`: the quick-pick
offers `store.groups()` with any group matching an exclusion's identifier
filtered out (`filter(f => !exclusions.find(x => x?.uuid === f.uuid))`). -/
def promptCandidates (s : Store) (exclusions : List (Option Group)) : List Group :=
  (Store.groups s).filter fun g =>
    !(exclusions.any fun x => match x with
      | some e => e.uuid == g.uuid
      | none => false)

/-- Sets the label of every entity carrying the given identifier — the pure
rendering of the in-place `bk.label = label` on the object held (at top
level or inside a group's children) in the store. -/
def setLabelB (u : Nat) (l : String) : Bookmarkable → Bookmarkable
  | .fav f => if f.uuid = u then .fav { f with label := l } else .fav f
  | .group g =>
    .group { g with
      label := if g.uuid = u then l else g.label,
      children := g.children.map fun c => if c.uuid = u then { c with label := l } else c }

/-- `FavoriteManager.renameFavorite` from `manager.ts`: a non-falsy label
from the input box overwrites the target's label in place and the store is
updated; a cancelled or empty prompt leaves everything as is. -/
def renameFavorite (s : Store) (u : Nat) (labelPrompt : Option String) : Store :=
  match labelPrompt with
  | none => s
  | some l => if l = "" then s else s.map (setLabelB u l)

/-- Outcome of `openGroup`: whether the group quick-pick was shown, and the
children that were opened in editors. -/
structure OpenGroupOut where
  prompted : Bool
  opened : List Favorite
deriving DecidableEq, Repr

/-- `FavoriteManager.openGroup` from `manager.ts`: with no argument or an
argument without children (`!group || !group.hasChildren`) the user is
prompted to pick a group; whichever group results has its children all
opened. -/
def openGroup (arg : Option Group) (pick : Option Group) : OpenGroupOut :=
  match arg with
  | some g =>
    if Group.hasChildren g then ⟨false, g.children⟩
    else
      match pick with
      | some g2 => ⟨true, g2.children⟩
      | none => ⟨true, []⟩
  | none =>
    match pick with
    | some g2 => ⟨true, g2.children⟩
    | none => ⟨true, []⟩

/-- Modelled from the spec: a record of the persisted JSON document — a kind
discriminator, a label, and a path or children (identifiers are not
persisted). A malformed document is one whose records do not fit the
two-level shape. -/
inductive PRec where
  | fileRec (label : String) (resourcePath : String)
  | groupRec (label : String) (children : List PRec)
deriving Repr

/-- Modelled from the spec: serializing one Bookmarkable to its persisted
record (kind discriminator, label, path or children). -/
def serializeEntry : Bookmarkable → PRec
  | .fav f => .fileRec f.label f.resourcePath
  | .group g => .groupRec g.label (g.children.map fun c => .fileRec c.label c.resourcePath)

/-- Modelled from the spec: the persisted JSON document lists the store's
Bookmarkable records. -/
def serialize (s : Store) : List PRec :=
  s.map serializeEntry

/-- Modelled from the spec: reading a group's children back; a nested group
record makes the document malformed (groups do not nest). Fresh identifiers
are assigned by traversal position starting at `n`. -/
def parseChildren : Nat → List PRec → Option (List Favorite)
  | _, [] => some []
  | n, .fileRec l p :: rest => (parseChildren (n + 1) rest).map (⟨n, l, p⟩ :: ·)
  | _, .groupRec _ _ :: _ => none

/-- Modelled from the spec: loading the persisted document back into an
entity list, assigning fresh identifiers by traversal position; `none` when
the document is malformed. -/
def parseRecs : Nat → List PRec → Option Store
  | _, [] => some []
  | n, .fileRec l p :: rest =>
    (parseRecs (n + 1) rest).map (Bookmarkable.fav ⟨n, l, p⟩ :: ·)
  | n, .groupRec l cs :: rest =>
    match parseChildren (n + 1) cs with
    | none => none
    | some kids =>
      (parseRecs (n + 1 + cs.length) rest).map (Bookmarkable.group ⟨n, l, kids⟩ :: ·)

/-- Modelled from the spec: `refresh()` reloads the entity list from the
on-disk document and fails on a malformed document, surfacing an error
instead of crashing. -/
def Store.refresh (doc : List PRec) : Except String Store :=
  match parseRecs 0 doc with
  | none => .error "Malformed favorites document"
  | some l => .ok l

/-- `FavoriteManager.reloadFavorites` from `manager.ts`: `store.refresh()`
inside a try/catch whose handler shows the error message to the user; the
Boolean records whether the error message was shown. On failure the
in-memory store is left as it was. -/
def reloadFavorites (s : Store) (doc : List PRec) : Store × Bool :=
  match Store.refresh doc with
  | .error _ => (s, true)
  | .ok s2 => (s2, false)

/-- Occurrences of the identifier `fu` among the children of the store's
groups whose identifier is `gu`. -/
def childCount (g : Group) (u : Nat) : Nat :=
  (g.children.filter fun c => c.uuid == u).length

/-- Total occurrences of favorite identifier `fu` among the children of the
groups of the store carrying group identifier `gu`. -/
def Store.countChild : Store → Nat → Nat → Nat
  | [], _, _ => 0
  | .fav _ :: t, gu, fu => Store.countChild t gu fu
  | .group g :: t, gu, fu =>
    (if g.uuid = gu then childCount g fu else 0) + Store.countChild t gu fu

/-- Number of group entries of the store carrying the identifier `u`. -/
def Store.groupCount : Store → Nat → Nat
  | [], _ => 0
  | .fav _ :: t, u => Store.groupCount t u
  | .group g :: t, u => (if g.uuid = u then 1 else 0) + Store.groupCount t u

/-- Whether a top-level Favorite with identifier `u` is present. -/
def Store.topFavUuid (s : Store) (u : Nat) : Bool :=
  s.any fun e => match e with
    | .fav f => f.uuid == u
    | .group _ => false

/-- The identifiers contributed by one entry: its own, plus its children's
for a group. -/
def entryUuids : Bookmarkable → List Nat
  | .fav f => [f.uuid]
  | .group g => g.uuid :: g.children.map Favorite.uuid

/-- All identifiers present in the store, at top level or nested. -/
def Store.allUuids (s : Store) : List Nat :=
  (s.map entryUuids).flatten

/-- Occurrences of the identifier `u` anywhere in the store. -/
def Store.countUuid (s : Store) (u : Nat) : Nat :=
  (s.map fun e => (entryUuids e).count u).sum

/-- A Favorite's label is a non-empty display string. -/
def favLabelOk (f : Favorite) : Bool :=
  f.label != ""

/-- All labels of one entry (its own and its children's) are non-empty. -/
def entryLabelsOk : Bookmarkable → Bool
  | .fav f => favLabelOk f
  | .group g => (g.label != "") && g.children.all favLabelOk

/-- Spec invariant: every label stored anywhere is a non-empty display
string. -/
def labelsOk (s : Store) : Bool :=
  s.all entryLabelsOk

/-- One row of the flattened store: identifier, label, resource path (for
favorites) and parent group identifier (for nested favorites). -/
structure FlatEntry where
  uuid : Nat
  label : String
  resourcePath : Option String
  parent : Option Nat
deriving DecidableEq, Repr

/-- Rows contributed by one entry of the store. -/
def flattenEntry : Bookmarkable → List FlatEntry
  | .fav f => [⟨f.uuid, f.label, some f.resourcePath, none⟩]
  | .group g =>
    ⟨g.uuid, g.label, none, none⟩ ::
      g.children.map fun c => ⟨c.uuid, c.label, some c.resourcePath, some g.uuid⟩

/-- The whole store flattened to rows: every entity with its identifier,
label, path and group membership. -/
def Store.flatten (s : Store) : List FlatEntry :=
  (s.map flattenEntry).flatten

/-- A sample favorite used to instantiate the theorems. -/
def demoFav : Favorite := ⟨0, "notes", "/home/u/notes.md"⟩

/-- A sample group holding `demoFav`. -/
def demoGroupA : Group := ⟨1, "A", [demoFav]⟩

/-- A sample empty group. -/
def demoGroupB : Group := ⟨2, "B", []⟩

/-- A sample store: group A containing the favorite, and empty group B. -/
def demoStore : Store := [.group demoGroupA, .group demoGroupB]

/-- A sample store holding a single top-level favorite and no groups. -/
def demoNoGroups : Store := [.fav demoFav]

/-- A malformed persisted document: a group record nested inside a group
record. -/
def demoBadDoc : List PRec := [.groupRec "g" [.groupRec "h" []]]

/-- A second sample favorite, stored at top level. -/
def demoFav2 : Favorite := ⟨3, "readme", "/home/u/readme.md"⟩

/-- A sample store with two groups and a top-level favorite. -/
def demoStore2 : Store := [.group demoGroupA, .group demoGroupB, .fav demoFav2]

end Fav

namespace Fav

/-- Claim C4: with a resolved path and an empty `groups()` collection, the
older `favoriteManager.ts` handler shows no warning (its guard `!groups`
tests the array, which is always truthy) while the `manager.ts` handler
warns; both leave the store unchanged. -/
theorem addToGroup_noGroups_warning_bug :
    favoriteActiveFileToGroupOld demoNoGroups (some "/p") none none none 7 =
      ⟨demoNoGroups, false⟩ ∧
    favoriteActiveFileToGroup demoNoGroups (some "/p") none none none 7 =
      ⟨demoNoGroups, true⟩ := by
  exact ⟨rfl, rfl⟩

/-- Claim C6: when the persisted document is malformed, the reload handler
reports the error to the user and leaves the in-memory entity list exactly
as it was. -/
theorem reload_malformed_preserves_state (s : Store) (doc : List PRec)
    (h : parseRecs 0 doc = none) :
    reloadFavorites s doc = (s, true) := by
  unfold reloadFavorites Store.refresh
  rw [h]

/-- Witness for claim C6 at a concrete malformed document. -/
theorem reload_malformed_preserves_state_witness :
    reloadFavorites demoStore demoBadDoc = (demoStore, true) :=
  reload_malformed_preserves_state demoStore demoBadDoc rfl

/-- Parsing back the serialized children of a group succeeds and yields
favorites with the same labels and paths (identifiers are reassigned). -/
theorem parseChildren_serialize (cs : List Favorite) (n : Nat) :
    ∃ kids,
      parseChildren n (cs.map fun c => PRec.fileRec c.label c.resourcePath) = some kids ∧
      kids.map (fun c => PRec.fileRec c.label c.resourcePath) =
        cs.map fun c => PRec.fileRec c.label c.resourcePath := by
  induction cs generalizing n with
  | nil => exact ⟨[], rfl, rfl⟩
  | cons c t ih =>
    obtain ⟨kids, hk, hs⟩ := ih (n + 1)
    exact ⟨⟨n, c.label, c.resourcePath⟩ :: kids, by simp [parseChildren, hk], by simp [hs]⟩

/-- Claim C5: serializing the store to its persisted document and reloading
from that document succeeds and yields an equivalent entity list — the same
entries with the same labels, resource paths and group memberships, as
captured by an unchanged serialization. -/
theorem store_roundTrip (s : Store) (n : Nat) :
    (parseRecs n (serialize s)).map serialize = some (serialize s) := by
  induction s generalizing n with
  | nil => rfl
  | cons e rest ih =>
    cases e with
    | fav f =>
      obtain ⟨rest', hr, hs⟩ := Option.map_eq_some'.mp (ih (n + 1))
      simp only [serialize, List.map_cons, serializeEntry, parseRecs, hr, Option.map_some']
      simp only [serialize] at hs
      simp [serialize, serializeEntry, hs]
      exact ⟨rest', hr, hs⟩
    | group g =>
      obtain ⟨kids, hk, hks⟩ := parseChildren_serialize g.children (n + 1)
      obtain ⟨rest', hr, hs⟩ :=
        Option.map_eq_some'.mp
          (ih (n + 1 + (g.children.map fun c => PRec.fileRec c.label c.resourcePath).length))
      simp only [List.length_map] at hr
      simp only [serialize, List.map_cons, serializeEntry, parseRecs, hk, hr, Option.map_some']
      simp only [serialize] at hs
      simp [serialize, serializeEntry, hs, hks]
      exact ⟨rest', hr, hs⟩

/-- Setting the label of the entities carrying one identifier acts on the
flattened rows pointwise. -/
theorem flattenEntry_setLabelB (u : Nat) (l : String) (e : Bookmarkable) :
    flattenEntry (setLabelB u l e) =
      (flattenEntry e).map fun r => if r.uuid = u then { r with label := l } else r := by
  cases e with
  | fav f => by_cases h : f.uuid = u <;> simp [setLabelB, flattenEntry, h]
  | group g =>
    simp only [setLabelB, flattenEntry, List.map_cons, List.map_map]
    refine List.cons_eq_cons.mpr ⟨?_, ?_⟩
    · by_cases h : g.uuid = u <;> simp [h]
    · refine List.map_congr_left fun c _ => ?_
      by_cases h : c.uuid = u <;> simp [h]

/-- Claim C3: a rename with a non-empty label changes exactly the labels of
the rows carrying the renamed identifier; every identifier, resource path,
group membership and every other row of the store is unchanged. -/
theorem renameFavorite_only_label (s : Store) (u : Nat) (l : String) (hl : l ≠ "") :
    Store.flatten (renameFavorite s u (some l)) =
      (Store.flatten s).map fun r => if r.uuid = u then { r with label := l } else r := by
  show Store.flatten (if l = "" then s else s.map (setLabelB u l)) = _
  rw [if_neg hl]
  induction s with
  | nil => rfl
  | cons e t ih =>
    simp only [List.map_cons, Store.flatten, List.flatten_cons, List.map_append] at ih ⊢
    rw [flattenEntry_setLabelB, ih]

/-- Witness for claim C3 at a concrete store and label. -/
theorem renameFavorite_only_label_witness :
    Store.flatten (renameFavorite demoStore 0 (some "todo")) =
      (Store.flatten demoStore).map
        fun r => if r.uuid = 0 then { r with label := "todo" } else r :=
  renameFavorite_only_label demoStore 0 "todo" (by decide)

/-- Filtering an identifier out of a children list leaves no occurrence of
that identifier. -/
theorem childCount_filter_ne (l : List Favorite) (u : Nat) :
    ((l.filter fun c => c.uuid != u).filter fun c => c.uuid == u) = [] := by
  rw [List.filter_eq_nil_iff]
  intro c hc
  have := (List.mem_filter.mp hc).2
  simp only [bne_iff_ne, ne_eq, decide_not] at this
  simp [this]

/-- Appending a child leaves a group's identifier unchanged. -/
theorem addChild_uuid (g : Group) (f : Favorite) : (Group.addChild g f).uuid = g.uuid :=
  rfl

/-- Removing a child leaves a group's identifier unchanged. -/
theorem removeChild_uuid (g : Group) (f : Favorite) :
    (Group.removeChild g f).uuid = g.uuid :=
  rfl

/-- Appending a favorite raises its identifier's count in the group by one. -/
theorem childCount_addChild (g : Group) (f : Favorite) :
    childCount (Group.addChild g f) f.uuid = childCount g f.uuid + 1 := by
  simp [childCount, Group.addChild, List.filter_append]

/-- Removing a favorite leaves no occurrence of its identifier in the group. -/
theorem childCount_removeChild (g : Group) (f : Favorite) :
    childCount (Group.removeChild g f) f.uuid = 0 := by
  simp [childCount, Group.removeChild, childCount_filter_ne]

/-- Appending a favorite to the groups carrying `u` raises the count of that
favorite's identifier under `u` by the number of such groups. -/
theorem countChild_mapGroup_addChild (s : Store) (u : Nat) (f : Favorite) :
    Store.countChild (Store.mapGroup s u fun g => Group.addChild g f) u f.uuid =
      Store.countChild s u f.uuid + Store.groupCount s u := by
  induction s with
  | nil => rfl
  | cons e t ih =>
    simp only [Store.mapGroup, List.map_cons] at ih ⊢
    cases e with
    | fav f0 =>
      dsimp only [cleanEntry]
      simpa [Store.countChild, Store.groupCount] using ih
    | group g =>
      dsimp only [cleanEntry]
      by_cases h : g.uuid = u
      · rw [if_pos h]
        simp only [Store.countChild, Store.groupCount, addChild_uuid, if_pos h,
          childCount_addChild, ih]
        omega
      · rw [if_neg h]
        simp only [Store.countChild, Store.groupCount, if_neg h, ih]
        omega

/-- Rewriting the groups carrying `u` with an identifier-preserving function
leaves the counts under any other group identifier unchanged. -/
theorem countChild_mapGroup_ne (s : Store) (u v fu : Nat) (hfun : Group → Group)
    (hpres : ∀ g, (hfun g).uuid = g.uuid) (hvu : v ≠ u) :
    Store.countChild (Store.mapGroup s u hfun) v fu = Store.countChild s v fu := by
  induction s with
  | nil => rfl
  | cons e t ih =>
    simp only [Store.mapGroup, List.map_cons] at ih ⊢
    cases e with
    | fav f0 =>
      dsimp only [cleanEntry]
      simpa [Store.countChild] using ih
    | group g =>
      dsimp only [cleanEntry]
      by_cases h : g.uuid = u
      · rw [if_pos h]
        have h1 : ¬ (hfun g).uuid = v := by
          rw [hpres g, h]
          exact fun hh => hvu hh.symm
        have h2 : ¬ g.uuid = v := by
          rw [h]
          exact fun hh => hvu hh.symm
        simp only [Store.countChild, if_neg h1, if_neg h2, ih]
      · rw [if_neg h]
        simp only [Store.countChild, ih]

/-- Removing a favorite from the groups carrying `u` leaves no occurrence of
the favorite's identifier under `u`. -/
theorem countChild_mapGroup_removeChild (s : Store) (u : Nat) (f : Favorite) :
    Store.countChild (Store.mapGroup s u fun g => Group.removeChild g f) u f.uuid = 0 := by
  induction s with
  | nil => rfl
  | cons e t ih =>
    simp only [Store.mapGroup, List.map_cons] at ih ⊢
    cases e with
    | fav f0 =>
      dsimp only [cleanEntry]
      simpa [Store.countChild] using ih
    | group g =>
      dsimp only [cleanEntry]
      by_cases h : g.uuid = u
      · rw [if_pos h]
        simp only [Store.countChild, removeChild_uuid, if_pos h,
          childCount_removeChild, ih]
      · rw [if_neg h]
        simp only [Store.countChild, if_neg h, ih]

/-- Rewriting groups with an identifier-preserving function does not change
how many groups carry an identifier. -/
theorem groupCount_mapGroup (s : Store) (u v : Nat) (hfun : Group → Group)
    (hpres : ∀ g, (hfun g).uuid = g.uuid) :
    Store.groupCount (Store.mapGroup s u hfun) v = Store.groupCount s v := by
  induction s with
  | nil => rfl
  | cons e t ih =>
    simp only [Store.mapGroup, List.map_cons] at ih ⊢
    cases e with
    | fav f0 =>
      dsimp only [cleanEntry]
      simpa [Store.groupCount] using ih
    | group g =>
      dsimp only [cleanEntry]
      by_cases h : g.uuid = u
      · rw [if_pos h]
        simp only [Store.groupCount, hpres g, ih]
      · rw [if_neg h]
        simp only [Store.groupCount, ih]

/-- After deleting an identifier, no group's children contain it. -/
theorem countChild_deleteUuid (s : Store) (gu u : Nat) :
    Store.countChild (Store.deleteUuid s u) gu u = 0 := by
  induction s with
  | nil => rfl
  | cons e t ih =>
    simp only [Store.deleteUuid, List.filter_cons] at ih ⊢
    by_cases h : (e.uuid != u) = true
    · rw [if_pos h, List.map_cons]
      cases e with
      | fav f0 =>
        dsimp only [cleanEntry]
        simpa [Store.countChild] using ih
      | group g =>
        dsimp only [cleanEntry]
        simp only [Store.countChild, ih]
        by_cases hg : g.uuid = gu
        · simp [hg, childCount, childCount_filter_ne]
        · simp [hg]
    · rw [if_neg h]
      exact ih

/-- Deleting one identifier does not change how many groups carry another. -/
theorem groupCount_deleteUuid (s : Store) (u gu : Nat) (huv : u ≠ gu) :
    Store.groupCount (Store.deleteUuid s u) gu = Store.groupCount s gu := by
  induction s with
  | nil => rfl
  | cons e t ih =>
    simp only [Store.deleteUuid, List.filter_cons] at ih ⊢
    by_cases h : (e.uuid != u) = true
    · rw [if_pos h, List.map_cons]
      cases e with
      | fav f0 =>
        dsimp only [cleanEntry]
        simpa [Store.groupCount] using ih
      | group g =>
        dsimp only [cleanEntry]
        simp only [Store.groupCount, ih]
    · rw [if_neg h]
      cases e with
      | fav f0 => simpa [Store.groupCount] using ih
      | group g =>
        have hgu : g.uuid = u := by
          simpa [Bookmarkable.uuid, bne_iff_ne] using h
        have hne : ¬ g.uuid = gu := by
          rw [hgu]
          exact huv
        simp only [Store.groupCount, if_neg hne, ih]
        omega

/-- After deleting an identifier, no top-level favorite carries it. -/
theorem topFavUuid_deleteUuid (s : Store) (u : Nat) :
    Store.topFavUuid (Store.deleteUuid s u) u = false := by
  induction s with
  | nil => rfl
  | cons e t ih =>
    simp only [Store.deleteUuid, List.filter_cons] at ih ⊢
    by_cases h : (e.uuid != u) = true
    · rw [if_pos h, List.map_cons]
      cases e with
      | fav f0 =>
        have hne : (f0.uuid == u) = false := by
          simpa [Bookmarkable.uuid, bne_iff_ne] using h
        dsimp only [cleanEntry]
        simpa [Store.topFavUuid, hne] using ih
      | group g =>
        dsimp only [cleanEntry]
        simpa [Store.topFavUuid] using ih
    · rw [if_neg h]
      exact ih

/-- Rewriting group entries never changes the top-level favorites. -/
theorem topFavUuid_mapGroup (s : Store) (u v : Nat) (hfun : Group → Group) :
    Store.topFavUuid (Store.mapGroup s u hfun) v = Store.topFavUuid s v := by
  induction s with
  | nil => rfl
  | cons e t ih =>
    simp only [Store.mapGroup, List.map_cons] at ih ⊢
    cases e with
    | fav f0 =>
      dsimp only [cleanEntry]
      simp only [Store.topFavUuid, List.any_cons] at ih ⊢
      rw [ih]
    | group g =>
      by_cases h : g.uuid = u
      · dsimp only
        rw [if_pos h]
        simp only [Store.topFavUuid, List.any_cons] at ih ⊢
        rw [ih]
      · dsimp only
        rw [if_neg h]
        simp only [Store.topFavUuid, List.any_cons] at ih ⊢
        rw [ih]

/-- Claim C1: moving a favorite to a destination group picked from the
quick-pick (which excludes the current parent): if the favorite was a child
of group A, it no longer occurs among A's children and occurs exactly once
among the destination's children; if it was top-level, it is deleted from
the top level and occurs exactly once among the destination's children.
The store is assumed well-formed around the two entities: the destination's
identifier names exactly one group, does not collide with the favorite's,
and the favorite is not already among the destination's children. -/
theorem moveFavorite_spec (s : Store) (f : Favorite) (b : Group)
    (hb : b ∈ promptCandidates s [Store.getParent s f])
    (hnotb : Store.countChild s b.uuid f.uuid = 0)
    (hone : Store.groupCount s b.uuid = 1)
    (hfb : f.uuid ≠ b.uuid) :
    (∀ a, Store.getParent s f = some a →
      Store.countChild (moveFavorite s f (some b)) a.uuid f.uuid = 0 ∧
      Store.countChild (moveFavorite s f (some b)) b.uuid f.uuid = 1) ∧
    (Store.getParent s f = none →
      Store.topFavUuid (moveFavorite s f (some b)) f.uuid = false ∧
      Store.countChild (moveFavorite s f (some b)) b.uuid f.uuid = 1) := by
  constructor
  · intro a ha
    have hb' := hb
    simp only [promptCandidates, List.mem_filter] at hb'
    have hp := hb'.2
    rw [ha] at hp
    simp only [List.any_cons, List.any_nil, Bool.or_false] at hp
    have hab : ¬ a.uuid = b.uuid := by
      intro hh
      rw [hh] at hp
      simp at hp
    have hba : ¬ b.uuid = a.uuid := fun hh => hab hh.symm
    have hmv : moveFavorite s f (some b) =
        Store.mapGroup (Store.mapGroup s a.uuid fun g => Group.removeChild g f)
          b.uuid fun g => Group.addChild g f := by
      unfold moveFavorite
      rw [ha]
    rw [hmv]
    constructor
    · rw [countChild_mapGroup_ne _ b.uuid a.uuid f.uuid
        (fun g => Group.addChild g f) (fun g => rfl) hab]
      exact countChild_mapGroup_removeChild s a.uuid f
    · rw [countChild_mapGroup_addChild]
      rw [countChild_mapGroup_ne s a.uuid b.uuid f.uuid
        (fun g => Group.removeChild g f) (fun g => rfl) hba]
      rw [groupCount_mapGroup s a.uuid b.uuid (fun g => Group.removeChild g f)
        (fun g => rfl)]
      rw [hnotb, hone]
  · intro ha
    have hmv : moveFavorite s f (some b) =
        Store.mapGroup (Store.deleteUuid s f.uuid) b.uuid
          fun g => Group.addChild g f := by
      unfold moveFavorite
      rw [ha]
    rw [hmv]
    constructor
    · rw [topFavUuid_mapGroup]
      exact topFavUuid_deleteUuid s f.uuid
    · rw [countChild_mapGroup_addChild]
      rw [countChild_deleteUuid]
      rw [groupCount_deleteUuid s f.uuid b.uuid hfb, hone]

/-- Witness for claim C1: moving the favorite out of group A into group B in
the sample store. -/
theorem moveFavorite_spec_witness :
    Store.countChild (moveFavorite demoStore demoFav (some demoGroupB))
      demoGroupA.uuid demoFav.uuid = 0 ∧
    Store.countChild (moveFavorite demoStore demoFav (some demoGroupB))
      demoGroupB.uuid demoFav.uuid = 1 :=
  (moveFavorite_spec demoStore demoFav demoGroupB (by decide) (by decide) (by decide)
    (by decide)).1 demoGroupA (by decide)

/-- Unfolding `deleteUuid` over a kept head entry. -/
theorem deleteUuid_cons_keep (e : Bookmarkable) (t : Store) (u : Nat)
    (h : (e.uuid != u) = true) :
    Store.deleteUuid (e :: t) u = cleanEntry u e :: Store.deleteUuid t u := by
  unfold Store.deleteUuid
  rw [List.filter_cons, if_pos h, List.map_cons]

/-- Unfolding `deleteUuid` over a dropped head entry. -/
theorem deleteUuid_cons_drop (e : Bookmarkable) (t : Store) (u : Nat)
    (h : ¬ (e.uuid != u) = true) :
    Store.deleteUuid (e :: t) u = Store.deleteUuid t u := by
  unfold Store.deleteUuid
  rw [List.filter_cons, if_neg h]

/-- Unfolding `countUuid` over a head entry. -/
theorem countUuid_cons (e : Bookmarkable) (t : Store) (v : Nat) :
    Store.countUuid (e :: t) v = (entryUuids e).count v + Store.countUuid t v := by
  simp [Store.countUuid]

/-- A top-level favorite contributes nothing to the groups query. -/
theorem groups_cons_fav (f : Favorite) (t : Store) :
    Store.groups (Bookmarkable.fav f :: t) = Store.groups t := by
  simp [Store.groups]

/-- A group entry heads the groups query. -/
theorem groups_cons_group (g : Group) (t : Store) :
    Store.groups (Bookmarkable.group g :: t) = g :: Store.groups t := by
  simp [Store.groups]

/-- Identifiers surviving the children filter never equal the filtered
identifier. -/
theorem count_map_uuid_filter (l : List Favorite) (u : Nat) :
    ((l.filter fun c => c.uuid != u).map Favorite.uuid).count u = 0 := by
  rw [List.count_eq_zero]
  intro hmem
  obtain ⟨c, hc, hcu⟩ := List.mem_map.mp hmem
  have hne := (List.mem_filter.mp hc).2
  rw [hcu] at hne
  simp at hne

/-- After deleting an identifier it occurs nowhere in the store. -/
theorem countUuid_deleteUuid_self (s : Store) (u : Nat) :
    Store.countUuid (Store.deleteUuid s u) u = 0 := by
  induction s with
  | nil => rfl
  | cons e t ih =>
    cases e with
    | fav f0 =>
      by_cases h : ((Bookmarkable.fav f0).uuid != u) = true
      · rw [deleteUuid_cons_keep _ _ _ h]
        dsimp only [cleanEntry]
        rw [countUuid_cons, ih]
        have hne : ¬ f0.uuid = u := by
          simpa [Bookmarkable.uuid, bne_iff_ne] using h
        have hz : (entryUuids (Bookmarkable.fav f0)).count u = 0 := by
          rw [List.count_eq_zero]
          intro hmem
          simp only [entryUuids, List.mem_singleton] at hmem
          exact hne hmem.symm
        simp [hz]
      · rw [deleteUuid_cons_drop _ _ _ h]
        exact ih
    | group g =>
      by_cases h : ((Bookmarkable.group g).uuid != u) = true
      · rw [deleteUuid_cons_keep _ _ _ h]
        dsimp only [cleanEntry]
        rw [countUuid_cons, ih]
        have hz : (entryUuids (Bookmarkable.group
            { g with children := g.children.filter fun c => c.uuid != u })).count u = 0 := by
          rw [List.count_eq_zero]
          intro hmem
          have hne : ¬ g.uuid = u := by
            simpa [Bookmarkable.uuid, bne_iff_ne] using h
          rcases List.mem_cons.mp hmem with h1 | h2
          · exact hne h1.symm
          · exact (List.count_eq_zero.mp (count_map_uuid_filter g.children u)) h2
        simp [hz]
      · rw [deleteUuid_cons_drop _ _ _ h]
        exact ih

/-- Deleting never raises an identifier's number of occurrences. -/
theorem countUuid_deleteUuid_le (s : Store) (u v : Nat) :
    Store.countUuid (Store.deleteUuid s u) v ≤ Store.countUuid s v := by
  induction s with
  | nil => exact Nat.le_refl 0
  | cons e t ih =>
    cases e with
    | fav f0 =>
      by_cases h : ((Bookmarkable.fav f0).uuid != u) = true
      · rw [deleteUuid_cons_keep _ _ _ h]
        dsimp only [cleanEntry]
        rw [countUuid_cons, countUuid_cons]
        omega
      · rw [deleteUuid_cons_drop _ _ _ h, countUuid_cons]
        omega
    | group g =>
      by_cases h : ((Bookmarkable.group g).uuid != u) = true
      · rw [deleteUuid_cons_keep _ _ _ h]
        dsimp only [cleanEntry]
        rw [countUuid_cons, countUuid_cons]
        have hhead : ((entryUuids (Bookmarkable.group
            { g with children := g.children.filter fun c => c.uuid != u })).count v) ≤
            (entryUuids (Bookmarkable.group g)).count v := by
          simp only [entryUuids, List.count_cons]
          have hfs : List.Sublist (g.children.filter fun c => c.uuid != u) g.children :=
            List.filter_sublist g.children
          have hsub := (hfs.map Favorite.uuid).count_le v
          omega
        omega
      · rw [deleteUuid_cons_drop _ _ _ h, countUuid_cons]
        omega

/-- Deleting a group's identifier removes at least that group's whole
contribution to the count of any of its children's identifiers. -/
theorem countUuid_deleteUuid_group (s : Store) (g : Group) (c : Favorite)
    (hg : Bookmarkable.group g ∈ s) (hc : c ∈ g.children) :
    Store.countUuid (Store.deleteUuid s g.uuid) c.uuid + 1 ≤
      Store.countUuid s c.uuid := by
  induction s with
  | nil => cases hg
  | cons e t ih =>
    rcases List.mem_cons.mp hg with he | ht
    · subst he
      have hdrop : ¬ ((Bookmarkable.group g).uuid != g.uuid) = true := by
        simp [Bookmarkable.uuid]
      rw [deleteUuid_cons_drop _ _ _ hdrop, countUuid_cons]
      have hle := countUuid_deleteUuid_le t g.uuid c.uuid
      have hmem : c.uuid ∈ entryUuids (Bookmarkable.group g) :=
        List.mem_cons_of_mem _ (List.mem_map_of_mem _ hc)
      have hpos : (entryUuids (Bookmarkable.group g)).count c.uuid ≠ 0 :=
        fun h0 => (List.count_eq_zero.mp h0) hmem
      omega
    · cases e with
      | fav f0 =>
        by_cases h : ((Bookmarkable.fav f0).uuid != g.uuid) = true
        · rw [deleteUuid_cons_keep _ _ _ h]
          dsimp only [cleanEntry]
          rw [countUuid_cons, countUuid_cons]
          have := ih ht
          omega
        · rw [deleteUuid_cons_drop _ _ _ h, countUuid_cons]
          have := ih ht
          omega
      | group g2 =>
        by_cases h : ((Bookmarkable.group g2).uuid != g.uuid) = true
        · rw [deleteUuid_cons_keep _ _ _ h]
          dsimp only [cleanEntry]
          rw [countUuid_cons, countUuid_cons]
          have hih := ih ht
          have hhead : ((entryUuids (Bookmarkable.group
              { g2 with children := g2.children.filter fun c2 => c2.uuid != g.uuid })).count
                c.uuid) ≤ (entryUuids (Bookmarkable.group g2)).count c.uuid := by
            simp only [entryUuids, List.count_cons]
            have hfs : List.Sublist (g2.children.filter fun c2 => c2.uuid != g.uuid)
                g2.children := List.filter_sublist g2.children
            have hsub := (hfs.map Favorite.uuid).count_le c.uuid
            omega
          omega
        · rw [deleteUuid_cons_drop _ _ _ h, countUuid_cons]
          have := ih ht
          omega

/-- Deleting an identifier absent from the store changes nothing. -/
theorem deleteUuid_eq_self (s : Store) (u : Nat) (h0 : Store.countUuid s u = 0) :
    Store.deleteUuid s u = s := by
  induction s with
  | nil => rfl
  | cons e t ih =>
    rw [countUuid_cons] at h0
    have he : (entryUuids e).count u = 0 := by omega
    have ht : Store.countUuid t u = 0 := by omega
    cases e with
    | fav f0 =>
      have hne : ¬ f0.uuid = u := by
        intro hh
        simp [entryUuids, hh] at he
      have hkeep : ((Bookmarkable.fav f0).uuid != u) = true := by
        simpa [Bookmarkable.uuid, bne_iff_ne] using hne
      rw [deleteUuid_cons_keep _ _ _ hkeep, ih ht]
      rfl
    | group g =>
      have hne : ¬ g.uuid = u := by
        intro hh
        simp [entryUuids, hh, List.count_cons] at he
      have hkeep : ((Bookmarkable.group g).uuid != u) = true := by
        simpa [Bookmarkable.uuid, bne_iff_ne] using hne
      rw [deleteUuid_cons_keep _ _ _ hkeep, ih ht]
      dsimp only [cleanEntry]
      have hch : g.children.filter (fun c => c.uuid != u) = g.children := by
        rw [List.filter_eq_self]
        intro c hcmem
        have hcne : ¬ c.uuid = u := by
          intro hh
          have hmem : u ∈ entryUuids (Bookmarkable.group g) :=
            List.mem_cons_of_mem _ (by rw [← hh]; exact List.mem_map_of_mem _ hcmem)
          exact (List.count_eq_zero.mp he) hmem
        simpa [bne_iff_ne] using hcne
      rw [hch]

/-- A stored top-level favorite's identifier occurs at least once. -/
theorem one_le_countUuid_fav (s : Store) (f : Favorite)
    (hf : Bookmarkable.fav f ∈ s) :
    1 ≤ Store.countUuid s f.uuid := by
  induction s with
  | nil => cases hf
  | cons e t ih =>
    rw [countUuid_cons]
    rcases List.mem_cons.mp hf with he | ht
    · subst he
      have hone : (entryUuids (Bookmarkable.fav f)).count f.uuid = 1 := by
        simp [entryUuids]
      omega
    · have := ih ht
      omega

/-- Deleting a top-level favorite whose identifier is unique leaves the
groups query — every group with all its children — unchanged. -/
theorem groups_deleteUuid_of_fav (s : Store) (f : Favorite)
    (hf : Bookmarkable.fav f ∈ s) (hle : Store.countUuid s f.uuid ≤ 1) :
    Store.groups (Store.deleteUuid s f.uuid) = Store.groups s := by
  induction s with
  | nil => rfl
  | cons e t ih =>
    rw [countUuid_cons] at hle
    rcases List.mem_cons.mp hf with he | ht
    · subst he
      have hdrop : ¬ ((Bookmarkable.fav f).uuid != f.uuid) = true := by
        simp [Bookmarkable.uuid]
      rw [deleteUuid_cons_drop _ _ _ hdrop]
      have ht0 : Store.countUuid t f.uuid = 0 := by
        have hone : (entryUuids (Bookmarkable.fav f)).count f.uuid = 1 := by
          simp [entryUuids]
        omega
      rw [deleteUuid_eq_self t f.uuid ht0, groups_cons_fav]
    · have h1 := one_le_countUuid_fav t f ht
      have he0 : (entryUuids e).count f.uuid = 0 := by omega
      have hle' : Store.countUuid t f.uuid ≤ 1 := by omega
      cases e with
      | fav f0 =>
        have hne : ¬ f0.uuid = f.uuid := by
          intro hh
          simp [entryUuids, hh] at he0
        have hkeep : ((Bookmarkable.fav f0).uuid != f.uuid) = true := by
          simpa [Bookmarkable.uuid, bne_iff_ne] using hne
        rw [deleteUuid_cons_keep _ _ _ hkeep]
        dsimp only [cleanEntry]
        rw [groups_cons_fav, groups_cons_fav]
        exact ih ht hle'
      | group g =>
        have hne : ¬ g.uuid = f.uuid := by
          intro hh
          simp [entryUuids, hh, List.count_cons] at he0
        have hkeep : ((Bookmarkable.group g).uuid != f.uuid) = true := by
          simpa [Bookmarkable.uuid, bne_iff_ne] using hne
        rw [deleteUuid_cons_keep _ _ _ hkeep]
        dsimp only [cleanEntry]
        have hch : g.children.filter (fun c => c.uuid != f.uuid) = g.children := by
          rw [List.filter_eq_self]
          intro c hcmem
          have hcne : ¬ c.uuid = f.uuid := by
            intro hh
            have hmem : f.uuid ∈ entryUuids (Bookmarkable.group g) :=
              List.mem_cons_of_mem _ (by rw [← hh]; exact List.mem_map_of_mem _ hcmem)
            exact (List.count_eq_zero.mp he0) hmem
          simpa [bne_iff_ne] using hcne
        rw [hch, groups_cons_group, groups_cons_group, ih ht hle']

/-- The recursive occurrence count agrees with counting in the flattened
identifier list. -/
theorem countUuid_eq_count (s : Store) (v : Nat) :
    Store.countUuid s v = (Store.allUuids s).count v := by
  induction s with
  | nil => rfl
  | cons e t ih =>
    rw [countUuid_cons, ih]
    simp [Store.allUuids, List.count_append]

/-- With pairwise-distinct identifiers, every identifier occurs at most
once. -/
theorem countUuid_le_one (s : Store) (hnd : (Store.allUuids s).Nodup) (v : Nat) :
    Store.countUuid s v ≤ 1 := by
  rw [countUuid_eq_count]
  exact List.nodup_iff_count_le_one.mp hnd v

/-- Claim C2: in a store with unique identifiers, confirming the deletion
of a Group removes the group and every one of its children from the store,
while confirming the deletion of a top-level Favorite leaves every group
and all group children untouched. -/
theorem removeFavorite_spec (s : Store) (g : Group) (f : Favorite)
    (hnd : (Store.allUuids s).Nodup) :
    (Bookmarkable.group g ∈ s →
      Store.countUuid (removeFavorite s (some (.group g)) (some "Yes")) g.uuid = 0 ∧
      ∀ c ∈ g.children,
        Store.countUuid (removeFavorite s (some (.group g)) (some "Yes")) c.uuid = 0) ∧
    (Bookmarkable.fav f ∈ s →
      Store.groups (removeFavorite s (some (.fav f)) (some "Yes")) = Store.groups s) := by
  have hrm : ∀ bk : Bookmarkable,
      removeFavorite s (some bk) (some "Yes") = Store.deleteUuid s bk.uuid := by
    intro bk
    simp [removeFavorite]
  constructor
  · intro hg
    rw [hrm]
    dsimp only [Bookmarkable.uuid]
    constructor
    · exact countUuid_deleteUuid_self s g.uuid
    · intro c hc
      have h3 := countUuid_deleteUuid_group s g c hg hc
      have h4 := countUuid_le_one s hnd c.uuid
      omega
  · intro hf
    rw [hrm]
    exact groups_deleteUuid_of_fav s f hf (countUuid_le_one s hnd f.uuid)

/-- Witness for claim C2: deleting group A (with its child) and deleting the
top-level favorite in the sample store. -/
theorem removeFavorite_spec_witness :
    Store.countUuid (removeFavorite demoStore2 (some (.group demoGroupA)) (some "Yes"))
      demoGroupA.uuid = 0 ∧
    Store.groups (removeFavorite demoStore2 (some (.fav demoFav2)) (some "Yes")) =
      Store.groups demoStore2 :=
  ⟨((removeFavorite_spec demoStore2 demoGroupA demoFav2 (by decide)).1 (by decide)).1,
    (removeFavorite_spec demoStore2 demoGroupA demoFav2 (by decide)).2 (by decide)⟩

/-- Appending an entry with sound labels preserves the label invariant. -/
theorem labelsOk_add {s : Store} {e : Bookmarkable}
    (hs : labelsOk s = true) (he : entryLabelsOk e = true) :
    labelsOk (Store.add s e) = true := by
  simp only [labelsOk, Store.add, List.all_append, List.all_cons, List.all_nil,
    Bool.and_true, Bool.and_eq_true] at *
  exact ⟨hs, he⟩

/-- Appending a sound child keeps a group's labels sound. -/
theorem entryLabelsOk_addChild {g : Group} {f : Favorite}
    (hg : entryLabelsOk (.group g) = true) (hf : favLabelOk f = true) :
    entryLabelsOk (.group (Group.addChild g f)) = true := by
  simp only [entryLabelsOk, Group.addChild, List.all_append, List.all_cons, List.all_nil,
    Bool.and_true, Bool.and_eq_true] at *
  exact ⟨hg.1, hg.2, hf⟩

/-- Removing a child keeps a group's labels sound. -/
theorem entryLabelsOk_removeChild {g : Group} {f : Favorite}
    (hg : entryLabelsOk (.group g) = true) :
    entryLabelsOk (.group (Group.removeChild g f)) = true := by
  simp only [entryLabelsOk, Group.removeChild, Bool.and_eq_true, List.all_eq_true] at *
  exact ⟨hg.1, fun c hc => hg.2 c (List.mem_of_mem_filter hc)⟩

/-- Rewriting one group entry with a label-sound transformation preserves
the store's label invariant. -/
theorem labelsOk_mapGroup {s : Store} {u : Nat} {hfun : Group → Group}
    (hs : labelsOk s = true)
    (hh : ∀ g, entryLabelsOk (.group g) = true → entryLabelsOk (.group (hfun g)) = true) :
    labelsOk (Store.mapGroup s u hfun) = true := by
  induction s with
  | nil => rfl
  | cons e t ih =>
    simp only [labelsOk, List.all_cons, Bool.and_eq_true] at hs
    cases e with
    | fav f =>
      simpa [labelsOk, Store.mapGroup, hs.1] using ih hs.2
    | group g =>
      by_cases h : g.uuid = u <;>
        simp_all [labelsOk, Store.mapGroup]

/-- Deleting an identifier from the store preserves the label invariant. -/
theorem labelsOk_deleteUuid {s : Store} {u : Nat} (hs : labelsOk s = true) :
    labelsOk (Store.deleteUuid s u) = true := by
  induction s with
  | nil => rfl
  | cons e t ih =>
    simp only [labelsOk, List.all_cons, Bool.and_eq_true] at hs
    by_cases h : (e.uuid != u) = true
    · rw [deleteUuid_cons_keep _ _ _ h]
      have he : entryLabelsOk (cleanEntry u e) = true := by
        cases e with
        | fav f => simpa [cleanEntry] using hs.1
        | group g =>
          simp only [cleanEntry, entryLabelsOk, Bool.and_eq_true, List.all_eq_true] at hs ⊢
          exact ⟨hs.1.1, fun c hc => hs.1.2 c (List.mem_of_mem_filter hc)⟩
      simp only [labelsOk, List.all_cons, Bool.and_eq_true]
      exact ⟨he, by simpa [labelsOk] using ih hs.2⟩
    · rw [deleteUuid_cons_drop _ _ _ h]
      exact ih hs.2

/-- Rewriting labels to a fixed non-empty label keeps an entry's labels
sound. -/
theorem entryLabelsOk_setLabelB {e : Bookmarkable} {u : Nat} {l : String}
    (he : entryLabelsOk e = true) (hl : l ≠ "") :
    entryLabelsOk (setLabelB u l e) = true := by
  cases e with
  | fav f =>
    by_cases h : f.uuid = u <;> simp_all [setLabelB, entryLabelsOk, favLabelOk]
  | group g =>
    simp only [entryLabelsOk, Bool.and_eq_true, List.all_eq_true] at he
    simp only [setLabelB, entryLabelsOk, Bool.and_eq_true, List.all_eq_true]
    refine ⟨?_, ?_⟩
    · by_cases h : g.uuid = u <;> simp_all
    · intro c hc
      obtain ⟨c0, hc0, rfl⟩ := List.mem_map.mp hc
      by_cases h : c0.uuid = u <;> simp_all [favLabelOk]

/-- Claim C9: the label invariant — every stored label is non-empty — is
preserved by every mutating handler: a created favorite, a favorite added
to a group, a created group and a renamed entry all carry non-empty labels,
and deletion and moving never introduce an empty one. -/
theorem labels_nonempty_preserved (s : Store) (node activeEditor : Option String)
    (pick : Option Group) (lbl : Option String) (target : Option Bookmarkable)
    (choice : Option String) (f : Favorite) (pick2 : Option Group) (u v : Nat)
    (hs : labelsOk s = true) (hf : favLabelOk f = true) :
    labelsOk (favoriteActiveFile s node activeEditor u lbl).st = true ∧
    labelsOk (favoriteActiveFileToGroup s node activeEditor pick lbl u).st = true ∧
    labelsOk (createGroup s v lbl) = true ∧
    labelsOk (renameFavorite s u lbl) = true ∧
    labelsOk (removeFavorite s target choice) = true ∧
    labelsOk (moveFavorite s f pick2) = true := by
  refine ⟨?_, ?_, ?_, ?_, ?_, ?_⟩
  · unfold favoriteActiveFile
    cases selectedElementPath node activeEditor with
    | none => exact hs
    | some p =>
      cases lbl with
      | none => exact hs
      | some l =>
        by_cases h : l = ""
        · simpa [h] using hs
        · simpa [h] using labelsOk_add hs (by simpa [entryLabelsOk, favLabelOk] using h)
  · unfold favoriteActiveFileToGroup
    cases selectedElementPath node activeEditor with
    | none => exact hs
    | some p =>
      simp only [jsFalsyArray, Bool.false_or]
      by_cases hgs : (Store.groups s).isEmpty <;> simp only [hgs, if_true, if_false]
      · exact hs
      · cases pick with
        | none => exact hs
        | some g =>
          cases lbl with
          | none => exact hs
          | some l =>
            by_cases h : l = ""
            · simpa [h] using hs
            · simpa [h] using labelsOk_mapGroup hs fun g' hg' =>
                entryLabelsOk_addChild hg' (by simpa [favLabelOk] using h)
  · unfold createGroup
    cases lbl with
    | none => exact hs
    | some l =>
      by_cases h : l = ""
      · simpa [h] using hs
      · simpa [h] using labelsOk_add hs (by simpa [entryLabelsOk, favLabelOk] using h)
  · unfold renameFavorite
    cases lbl with
    | none => exact hs
    | some l =>
      by_cases h : l = ""
      · simpa [h] using hs
      · simp only [h, if_false]
        simp only [labelsOk, List.all_eq_true] at hs ⊢
        intro e he
        obtain ⟨e0, he0, rfl⟩ := List.mem_map.mp he
        exact entryLabelsOk_setLabelB (hs e0 he0) h
  · unfold removeFavorite
    cases target with
    | none => exact hs
    | some bk =>
      by_cases h : choice = some "Yes" <;> simp only [h, if_true, if_false]
      · exact labelsOk_deleteUuid hs
      · exact hs
  · unfold moveFavorite
    cases pick2 with
    | none => exact hs
    | some b =>
      refine labelsOk_mapGroup ?_ fun g' hg' => entryLabelsOk_addChild hg' hf
      cases Store.getParent s f with
      | none => exact labelsOk_deleteUuid hs
      | some a => exact labelsOk_mapGroup hs fun g' hg' => entryLabelsOk_removeChild hg'

/-- Witness for claim C9 at a concrete store and favorite. -/
theorem labels_nonempty_preserved_witness :
    labelsOk (favoriteActiveFile demoStore (some "/p") none 5 (some "x")).st = true ∧
    labelsOk (favoriteActiveFileToGroup demoStore (some "/p") none (some demoGroupB)
      (some "x") 5).st = true ∧
    labelsOk (createGroup demoStore 6 (some "G")) = true ∧
    labelsOk (renameFavorite demoStore 5 (some "x")) = true ∧
    labelsOk (removeFavorite demoStore (some (.group demoGroupA)) (some "Yes")) = true ∧
    labelsOk (moveFavorite demoStore demoFav (some demoGroupB)) = true :=
  labels_nonempty_preserved demoStore (some "/p") none (some demoGroupB) (some "x")
    (some (.group demoGroupA)) (some "Yes") demoFav (some demoGroupB) 5 6
    (by decide) (by decide)

/-- Claim C7: whenever a prompt of a mutating handler is cancelled, the
handler terminates with the store untouched: cancelled label prompt for a
new favorite, cancelled group pick or label prompt for a favorite-to-group,
cancelled group-name prompt, cancelled delete confirmation, cancelled
destination pick for a move, cancelled rename prompt. -/
theorem cancelled_prompt_aborts (s : Store) (node activeEditor : Option String)
    (lbl : Option String) (pick : Option Group) (target : Option Bookmarkable)
    (f : Favorite) (u : Nat) :
    (favoriteActiveFile s node activeEditor u none).st = s ∧
    (favoriteActiveFileToGroup s node activeEditor none lbl u).st = s ∧
    (favoriteActiveFileToGroup s node activeEditor pick none u).st = s ∧
    createGroup s u none = s ∧
    removeFavorite s target none = s ∧
    moveFavorite s f none = s ∧
    renameFavorite s u none = s := by
  refine ⟨?_, ?_, ?_, rfl, ?_, rfl, rfl⟩
  · cases h : selectedElementPath node activeEditor <;> simp [favoriteActiveFile, h]
  · cases h : selectedElementPath node activeEditor <;>
      simp [favoriteActiveFileToGroup, h, jsFalsyArray] <;> split <;> rfl
  · cases h : selectedElementPath node activeEditor <;>
      simp [favoriteActiveFileToGroup, h, jsFalsyArray] <;> split
    · rfl
    · cases pick <;> rfl
  · cases target <;> simp [removeFavorite]

/-- Claim C8 counterexample: with no selected element and no active editor,
adding the current file as a favorite shows no warning — the handler returns
silently, contrary to the claimed warning. -/
theorem noSelection_warns_cex :
    ¬ (favoriteActiveFile demoNoGroups none none 0 (some "lbl")).warned = true := by
  decide

/-- Claim C8 as amended: with no selected element and no active editor, the
add-favorite handlers terminate silently — the store is unchanged and no
warning is shown. -/
theorem noSelection_silent_noop (s : Store) (u : Nat) (lbl : Option String)
    (pick : Option Group) :
    favoriteActiveFile s none none u lbl = ⟨s, false⟩ ∧
    favoriteActiveFileToGroup s none none pick lbl u = ⟨s, false⟩ :=
  ⟨rfl, rfl⟩

/-- Claim C10: opening a group with no argument, or with an argument that
has no children, falls back to the group quick-pick; only an argument group
with at least one child is opened directly, and then exactly its children
are opened. -/
theorem openGroup_fallback (pick : Option Group) (gu : Nat) (gl : String)
    (g : Group) (h : g.children ≠ []) :
    (openGroup none pick).prompted = true ∧
    (openGroup (some ⟨gu, gl, []⟩) pick).prompted = true ∧
    openGroup (some g) pick = ⟨false, g.children⟩ := by
  refine ⟨?_, ?_, ?_⟩
  · cases pick <;> rfl
  · cases pick <;> rfl
  · cases hc : g.children with
    | nil => exact absurd hc h
    | cons a t => simp [openGroup, Group.hasChildren, hc]

/-- Witness for claim C10 at concrete groups. -/
theorem openGroup_fallback_witness :
    (openGroup none (some demoGroupB)).prompted = true ∧
    (openGroup (some ⟨9, "E", []⟩) (some demoGroupB)).prompted = true ∧
    openGroup (some demoGroupA) (some demoGroupB) = ⟨false, demoGroupA.children⟩ :=
  openGroup_fallback (some demoGroupB) 9 "E" demoGroupA (by decide)

end Fav
